import Mathlib

set_option maxRecDepth 4000
set_option maxHeartbeats 1000000

namespace PatchAppointments

/-- Matching at the head of the text, as Python substring search tests a
candidate position: `beginsWith pat text = true` iff `pat` occurs at the very
start of `text`. -/
def beginsWith : List Char → List Char → Bool
  | [], _ => true
  | _ :: _, [] => false
  | p :: ps, c :: cs => p == c && beginsWith ps cs

/-- Embedding of Python `text.find(pat)`, found/not-found content: the least
index at which `pat` occurs in `text`, or `none`. -/
def findSub : List Char → List Char → Option Nat
  | [], pat => if beginsWith pat [] then some 0 else none
  | c :: rest, pat =>
      if beginsWith pat (c :: rest) then some 0
      else (findSub rest pat).map (· + 1)

/-- Decimal rendering of an integer, as Python `str` renders `int` (used by the
f-string diagnostic). -/
def intStr : Int → List Char
  | Int.ofNat n => (Nat.repr n).data
  | Int.negSucc n => '-' :: (Nat.repr (n + 1)).data

/-- Python `text.find(pat)`: the index of the first occurrence, or `-1`. -/
def pyFind (text pat : List Char) : Int :=
  match findSub text pat with
  | some i => (i : Int)
  | none => -1

/-- The `start_marker` constant of `patch_appointments.py`. -/
def start_marker : List Char :=
  ("// Notificar al estilista si existe mapping user_id").data

/-- The `end_marker` constant of `patch_appointments.py`. -/
def end_marker : List Char :=
  ("// Notificar al cliente por push (si tiene token registrado en customer_app_settings)").data

/-- Segment 0 of the `new_block` literal of `patch_appointments.py`
(consecutive segments, in order, spell the exact triple-quoted string value). -/
def nbSeg0 : List Char :=
  ("      // Notificar al estilista (Internal Notification, WhatsApp, Email)
      try \x7b await pool.query(`ALTER TABLE instructor ADD COLUMN phone_e164 VARCHAR(32) NULL`); \x7d catch \x7b\x7d

      const [[inst]] = await pool.query(
        \"SELECT id, user_id, phone_e164, name FROM instructor WHERE id=? AND tenant_id=? LIMIT 1\",
        [instructorId, tenantId]
      );

").data
/-- Segment 1 of the `new_block` literal of `patch_appointments.py`
(consecutive segments, in order, spell the exact triple-quoted string value). -/
def nbSeg1 : List Char :=
  ("      if (inst) \x7b
        // 1. Notificación interna (si tiene usuario)
        if (inst.user_id) \x7b
          await createNotification(\x7b
            tenantId,
            userId: inst.user_id,
            type: \"appointment\",
            title: \"Te asignaron un nuevo turno\",
            message: `$\x7bcustomerLabel\x7d — $\x7bserviceLabel\x7d — Inicio: $\x7bstartsAt\x7d`,
").data
/-- Segment 2 of the `new_block` literal of `patch_appointments.py`
(consecutive segments, in order, spell the exact triple-quoted string value). -/
def nbSeg2 : List Char :=
  ("            data: \x7b tenantId, appointmentId, instructorId, serviceId, customerId: effectiveCustomerId, startsAt, endsAt: endMySQL \x7d
          \x7d);
        \x7d

        // 2. WhatsApp (si tiene teléfono)
        if (inst.phone_e164 && sendWhatsAppText) \x7b
          try \x7b
            const whenLabel = fmtLocal(startMySQL.replace(\" \", \"T\"));
").data
/-- Segment 3 of the `new_block` literal of `patch_appointments.py`
(consecutive segments, in order, spell the exact triple-quoted string value). -/
def nbSeg3 : List Char :=
  ("            const cName = c?.name || \"Cliente\";
            const cPhone = c?.phone || \"\";
            const cText = cPhone ? `$\x7bcName\x7d ($\x7bcPhone\x7d)` : cName;

            const msg = `Hola $\x7binst.name || \"👤\"\x7d!\\n\\nNuevo turno asignado:\\n` +
                        `• Cliente: $\x7bcText\x7d\\n` +
                        `• Servicio: $\x7bserviceLabel\x7d\\n` +
").data
/-- Segment 4 of the `new_block` literal of `patch_appointments.py`
(consecutive segments, in order, spell the exact triple-quoted string value). -/
def nbSeg4 : List Char :=
  ("                        `• Horario: $\x7bwhenLabel\x7d`;
            
            try \x7b
              await sendWhatsAppText(inst.phone_e164, msg, tenantId);
            \x7d catch (waErr) \x7b
              if (waErr.code === 131047 && sendWhatsAppTemplate) \x7b
                const langs = [\"es\", \"es_AR\", \"es_419\"];
                for (const lang of langs) \x7b
                  try \x7b
").data
/-- Segment 5 of the `new_block` literal of `patch_appointments.py`
(consecutive segments, in order, spell the exact triple-quoted string value). -/
def nbSeg5 : List Char :=
  ("                    await sendWhatsAppTemplate(
                      inst.phone_e164,
                      \"nuevo_turno_profesional\",
                      lang,
                      [
                        \x7b type: \"body\", parameters: [
                          \x7b type: \"text\", text: inst.name || \"Profesional\" \x7d,
                          \x7b type: \"text\", text: cText \x7d,
").data
/-- Segment 6 of the `new_block` literal of `patch_appointments.py`
(consecutive segments, in order, spell the exact triple-quoted string value). -/
def nbSeg6 : List Char :=
  ("                          \x7b type: \"text\", text: serviceLabel \x7d,
                          \x7b type: \"text\", text: whenLabel \x7d
                        ] \x7d
                      ],
                      tenantId
                    );
                    break;
                  \x7d catch \x7b\x7d
                \x7d
              \x7d
            \x7d
          \x7d catch (waSendErr) \x7b
").data
/-- Segment 7 of the `new_block` literal of `patch_appointments.py`
(consecutive segments, in order, spell the exact triple-quoted string value). -/
def nbSeg7 : List Char :=
  ("            console.error(\"⚠️ [appointments] Error enviando WhatsApp al peluquero:\", waSendErr?.message || waSendErr);
          \x7d
        \x7d

        // 3. Email (si tiene usuario y email)
        if (inst.user_id) \x7b
          try \x7b
            const [[u]] = await pool.query(
              \"SELECT email FROM users WHERE id = ? AND tenant_id = ? LIMIT 1\",
").data
/-- Segment 8 of the `new_block` literal of `patch_appointments.py`
(consecutive segments, in order, spell the exact triple-quoted string value). -/
def nbSeg8 : List Char :=
  ("              [inst.user_id, tenantId]
            );
            if (u?.email) \x7b
              const \x7b sendEmail \x7d = await import(\"../email.js\").catch(() => (\x7b sendEmail: null \x7d));
              if (sendEmail) \x7b
                const whenLabel = fmtLocal(startMySQL.replace(\" \", \"T\"));
                const cName = c?.name || \"Cliente\";
").data
/-- Segment 9 of the `new_block` literal of `patch_appointments.py`
(consecutive segments, in order, spell the exact triple-quoted string value). -/
def nbSeg9 : List Char :=
  ("                const cPhone = c?.phone || \"\";
                const cText = cPhone ? `$\x7bcName\x7d ($\x7bcPhone\x7d)` : cName;
                
                const subject = \"Nuevo turno asignado\";
                const html = [
                  `<p>Se te asignó un nuevo turno.</p>`,
                  `<p><strong>Cliente:</strong> $\x7bcText\x7d</p>`,
").data
/-- Segment 10 of the `new_block` literal of `patch_appointments.py`
(consecutive segments, in order, spell the exact triple-quoted string value). -/
def nbSeg10 : List Char :=
  ("                  `<p><strong>Servicio:</strong> $\x7bserviceLabel\x7d</p>`,
                  `<p><strong>Horario:</strong> $\x7bwhenLabel\x7d</p>`
                ].join(\"\");
                await sendEmail(\x7b to: u.email, subject, html, tenantId \x7d);
                console.log(`✅ [appointments] Email enviado al peluquero $\x7bu.email\x7d`);
              \x7d
            \x7d
").data
/-- Segment 11 of the `new_block` literal of `patch_appointments.py`
(consecutive segments, in order, spell the exact triple-quoted string value). -/
def nbSeg11 : List Char :=
  ("          \x7d catch (emailErr) \x7b
            console.error(\"⚠️ [appointments] Error enviando email al peluquero:\", emailErr?.message || emailErr);
          \x7d
        \x7d
      \x7d

").data

/-- The `new_block` replacement constant of `patch_appointments.py`: the exact
string value of the triple-quoted literal, written as the concatenation of its
consecutive segments `nbSeg0 ++ nbSeg1 ++ …` (in order). -/
def new_block : List Char :=
  nbSeg0 ++ (nbSeg1 ++ (nbSeg2 ++ (nbSeg3 ++ (nbSeg4 ++ (nbSeg5 ++ (nbSeg6 ++ (nbSeg7 ++ (nbSeg8 ++ (nbSeg9 ++ (nbSeg10 ++ (nbSeg11)))))))))))

/-- Observable result of one run of the script: the file contents after the run,
the single console line printed, and the process exit status. -/
structure RunResult where
  fileContent : List Char
  output : List Char
  exitCode : Nat
deriving DecidableEq

/-- The success message `"Successfully patched appointments.js"`. -/
def successMsg : List Char := "Successfully patched appointments.js".data

/-- The failure diagnostic produced by the f-string
`f"Markers not found! start=\x7bstart_idx\x7d, end=\x7bend_idx\x7d"`. -/
def missingMsg (start_idx end_idx : Int) : List Char :=
  "Markers not found! start=".data ++ intStr start_idx ++ ", end=".data ++ intStr end_idx

/-- The splice `content[:start_idx] + repl + content[end_idx:]` of line 118. -/
def splice (content : List Char) (start_idx end_idx : Nat) (repl : List Char) : List Char :=
  content.take start_idx ++ repl ++ content.drop end_idx

/-- The script body, abstracted over the marker and replacement constants:
locate both markers with `find`, abort printing the diagnostic with exit status 1
if either index is `-1`, otherwise write the splice and print the success
message (status 0). -/
def runPatcher (sMarker eMarker repl content : List Char) : RunResult :=
  let start_idx := pyFind content sMarker
  let end_idx := pyFind content eMarker
  if start_idx = -1 ∨ end_idx = -1 then
    { fileContent := content
      output := missingMsg start_idx end_idx
      exitCode := 1 }
  else
    { fileContent := splice content start_idx.toNat end_idx.toNat repl
      output := successMsg
      exitCode := 0 }

/-- The script `patch_appointments.py` itself: `runPatcher` at its baked-in
marker and replacement constants, as a function of the file contents read. -/
def patchRun (content : List Char) : RunResult :=
  runPatcher start_marker end_marker new_block content

/-- Events of one run, in program order, for the temporal claims. -/
inductive Event where
  | readFile (content : List Char)
  | findMarker (marker : List Char) (idx : Int)
  | writeFile (content : List Char)
  | printLine (msg : List Char)
  | exitProc (code : Nat)
deriving DecidableEq

/-- The sequence of observable events of one run of the script, in the order the
source performs them: read the file, find the start marker, find the end marker,
then either print the diagnostic and exit with status 1, or write the splice,
print the confirmation and end with status 0. -/
def scriptTrace (content : List Char) : List Event :=
  let start_idx := pyFind content start_marker
  let end_idx := pyFind content end_marker
  Event.readFile content ::
  Event.findMarker start_marker start_idx ::
  Event.findMarker end_marker end_idx ::
  (if start_idx = -1 ∨ end_idx = -1 then
    [Event.printLine (missingMsg start_idx end_idx), Event.exitProc 1]
  else
    [Event.writeFile (splice content start_idx.toNat end_idx.toNat new_block),
     Event.printLine successMsg, Event.exitProc 0])

theorem beginsWith_iff_exists {p t : List Char} :
    beginsWith p t = true ↔ ∃ r, t = p ++ r := by
  induction p generalizing t with
  | nil =>
    simp only [beginsWith, List.nil_append]
    exact ⟨fun _ => ⟨t, rfl⟩, fun _ => trivial⟩
  | cons a ps ih =>
    cases t with
    | nil =>
      simp only [beginsWith]
      constructor
      · intro h; cases h
      · rintro ⟨r, h⟩; cases h
    | cons c cs =>
      simp only [beginsWith, Bool.and_eq_true, beq_iff_eq, List.cons_append]
      constructor
      · rintro ⟨rfl, h⟩
        obtain ⟨r, rfl⟩ := ih.mp h
        exact ⟨r, rfl⟩
      · rintro ⟨r, h⟩
        injection h with h1 h2
        subst h1
        exact ⟨rfl, ih.mpr ⟨r, h2⟩⟩

theorem beginsWith_length_le {p t : List Char} (h : beginsWith p t = true) :
    p.length ≤ t.length := by
  obtain ⟨r, rfl⟩ := beginsWith_iff_exists.mp h
  simp

theorem beginsWith_take_eq {p t : List Char} (h : beginsWith p t = true) :
    t.take p.length = p := by
  obtain ⟨r, rfl⟩ := beginsWith_iff_exists.mp h
  exact List.take_left p r

theorem beginsWith_of_take {p t : List Char} (_hle : p.length ≤ t.length)
    (h : t.take p.length = p) : beginsWith p t = true := by
  refine beginsWith_iff_exists.mpr ⟨t.drop p.length, ?_⟩
  conv_lhs => rw [← List.take_append_drop p.length t]
  rw [h]

theorem beginsWith_append_of {p u : List Char} (w : List Char)
    (h : beginsWith p u = true) : beginsWith p (u ++ w) = true := by
  obtain ⟨r, rfl⟩ := beginsWith_iff_exists.mp h
  exact beginsWith_iff_exists.mpr ⟨r ++ w, by simp⟩

theorem beginsWith_take_bool (p t : List Char) :
    beginsWith p (t.take p.length) = beginsWith p t := by
  cases hb : beginsWith p t with
  | true =>
    have hle : p.length ≤ t.length := beginsWith_length_le hb
    have ht := beginsWith_take_eq hb
    exact beginsWith_of_take (by rw [List.length_take]; omega)
      (by rw [List.take_take, Nat.min_self]; exact ht)
  | false =>
    cases hb2 : beginsWith p (t.take p.length) with
    | true =>
      have ht := beginsWith_take_eq hb2
      rw [List.take_take, Nat.min_self] at ht
      have hle2 := beginsWith_length_le hb2
      rw [List.length_take] at hle2
      have := beginsWith_of_take (t := t) (by omega) ht
      rw [this] at hb
      cases hb
    | false => rfl

theorem beginsWith_append_split {p u v : List Char}
    (h : beginsWith p (u ++ v) = true) :
    (p.length ≤ u.length ∧ beginsWith p u = true) ∨
    (u.length < p.length ∧ p.take u.length = u ∧
      beginsWith (p.drop u.length) v = true) := by
  rcases le_or_lt p.length u.length with hle | hlt
  · left
    refine ⟨hle, ?_⟩
    have ht := beginsWith_take_eq h
    rw [List.take_append_of_le_length hle] at ht
    exact beginsWith_of_take hle ht
  · right
    obtain ⟨r, hr⟩ := beginsWith_iff_exists.mp h
    refine ⟨hlt, ?_, ?_⟩
    · have hu : (u ++ v).take u.length = u := List.take_left u v
      rw [hr, List.take_append_of_le_length (Nat.le_of_lt hlt)] at hu
      exact hu
    · have hd : (u ++ v).drop u.length = v := List.drop_left u v
      rw [hr, List.drop_append_eq_append_drop,
        Nat.sub_eq_zero_of_le (Nat.le_of_lt hlt), List.drop_zero] at hd
      exact beginsWith_iff_exists.mpr ⟨r, hd.symm⟩

theorem beginsWith_agree {p q t : List Char} (hp : beginsWith p t = true)
    (hq : beginsWith q t = true) (hle : p.length ≤ q.length) :
    p = q.take p.length := by
  calc p = t.take p.length := (beginsWith_take_eq hp).symm
    _ = t.take (min p.length q.length) := by rw [Nat.min_eq_left hle]
    _ = (t.take q.length).take p.length := by rw [List.take_take]
    _ = q.take p.length := by rw [beginsWith_take_eq hq]

theorem findSub_some {t p : List Char} {i : Nat} (h : findSub t p = some i) :
    beginsWith p (t.drop i) = true := by
  induction t generalizing i with
  | nil =>
    by_cases hb : beginsWith p [] = true
    · simp only [findSub, hb, if_true, Option.some.injEq] at h
      subst h
      simpa using hb
    · simp only [findSub, hb, if_false, reduceCtorEq] at h
  | cons c rest ih =>
    by_cases hb : beginsWith p (c :: rest) = true
    · simp only [findSub, hb, if_true, Option.some.injEq] at h
      subst h
      simpa using hb
    · simp only [findSub, hb, if_false] at h
      obtain ⟨j, hf, hj⟩ := Option.map_eq_some'.mp h
      subst hj
      rw [List.drop_succ_cons]
      exact ih hf

theorem findSub_least {t p : List Char} {i j : Nat} (h : findSub t p = some i)
    (hj : j < i) : beginsWith p (t.drop j) = false := by
  induction t generalizing i j with
  | nil =>
    by_cases hb : beginsWith p [] = true
    · simp only [findSub, hb, if_true, Option.some.injEq] at h
      omega
    · simp only [findSub, hb, if_false, reduceCtorEq] at h
  | cons c rest ih =>
    by_cases hb : beginsWith p (c :: rest) = true
    · simp only [findSub, hb, if_true, Option.some.injEq] at h
      omega
    · simp only [findSub, hb, if_false] at h
      obtain ⟨i', hf, hi⟩ := Option.map_eq_some'.mp h
      subst hi
      cases j with
      | zero =>
        simpa using Bool.not_eq_true _ ▸ hb
      | succ j' =>
        rw [List.drop_succ_cons]
        exact ih hf (by omega)

theorem findSub_none_iff {t p : List Char} :
    findSub t p = none ↔ ∀ j, beginsWith p (t.drop j) = false := by
  induction t with
  | nil =>
    constructor
    · intro h j
      rw [List.drop_nil]
      by_cases hb : beginsWith p [] = true
      · rw [findSub, if_pos hb] at h
        cases h
      · exact Bool.eq_false_iff.mpr hb
    · intro h
      have h0 := h 0
      rw [List.drop_nil] at h0
      rw [findSub, if_neg]
      rw [h0]
      exact Bool.false_ne_true
  | cons c rest ih =>
    by_cases hb : beginsWith p (c :: rest) = true
    · rw [findSub, if_pos hb]
      constructor
      · intro h
        cases h
      · intro h
        have h0 := h 0
        rw [List.drop_zero, hb] at h0
        cases h0
    · rw [findSub, if_neg hb, Option.map_eq_none', ih]
      constructor
      · intro h j
        cases j with
        | zero =>
          rw [List.drop_zero]
          exact Bool.eq_false_iff.mpr hb
        | succ j' =>
          rw [List.drop_succ_cons]
          exact h j'
      · intro h j
        have := h (j + 1)
        rwa [List.drop_succ_cons] at this

theorem findSub_append_none {p x y : List Char}
    (hx : findSub (x ++ y.take p.length) p = none)
    (hy : findSub y p = none) :
    findSub (x ++ y) p = none := by
  rw [findSub_none_iff] at hx hy ⊢
  intro j
  rcases le_or_lt x.length j with hj | hj
  · rw [List.drop_append_eq_append_drop, List.drop_eq_nil_of_le hj,
      List.nil_append]
    exact hy (j - x.length)
  · have hx' := hx j
    rw [List.drop_append_eq_append_drop,
      Nat.sub_eq_zero_of_le (Nat.le_of_lt hj), List.drop_zero] at hx' ⊢
    have htake : ((x.drop j ++ y).take p.length) =
        ((x.drop j ++ y.take p.length).take p.length) := by
      rw [List.take_append_eq_append_take, List.take_append_eq_append_take,
        List.take_take, Nat.min_eq_left (Nat.sub_le _ _)]
    rw [← beginsWith_take_bool, htake, beginsWith_take_bool]
    exact hx'

theorem block_no_start : findSub new_block start_marker = none := by
  have h11 : findSub nbSeg11 start_marker = none := by decide
  have h10 : findSub (nbSeg10 ++ (nbSeg11)) start_marker = none :=
    findSub_append_none (by decide) h11
  have h9 : findSub (nbSeg9 ++ (nbSeg10 ++ (nbSeg11))) start_marker = none :=
    findSub_append_none (by decide) h10
  have h8 : findSub (nbSeg8 ++ (nbSeg9 ++ (nbSeg10 ++ (nbSeg11)))) start_marker = none :=
    findSub_append_none (by decide) h9
  have h7 : findSub (nbSeg7 ++ (nbSeg8 ++ (nbSeg9 ++ (nbSeg10 ++ (nbSeg11))))) start_marker = none :=
    findSub_append_none (by decide) h8
  have h6 : findSub (nbSeg6 ++ (nbSeg7 ++ (nbSeg8 ++ (nbSeg9 ++ (nbSeg10 ++ (nbSeg11)))))) start_marker = none :=
    findSub_append_none (by decide) h7
  have h5 : findSub (nbSeg5 ++ (nbSeg6 ++ (nbSeg7 ++ (nbSeg8 ++ (nbSeg9 ++ (nbSeg10 ++ (nbSeg11))))))) start_marker = none :=
    findSub_append_none (by decide) h6
  have h4 : findSub (nbSeg4 ++ (nbSeg5 ++ (nbSeg6 ++ (nbSeg7 ++ (nbSeg8 ++ (nbSeg9 ++ (nbSeg10 ++ (nbSeg11)))))))) start_marker = none :=
    findSub_append_none (by decide) h5
  have h3 : findSub (nbSeg3 ++ (nbSeg4 ++ (nbSeg5 ++ (nbSeg6 ++ (nbSeg7 ++ (nbSeg8 ++ (nbSeg9 ++ (nbSeg10 ++ (nbSeg11))))))))) start_marker = none :=
    findSub_append_none (by decide) h4
  have h2 : findSub (nbSeg2 ++ (nbSeg3 ++ (nbSeg4 ++ (nbSeg5 ++ (nbSeg6 ++ (nbSeg7 ++ (nbSeg8 ++ (nbSeg9 ++ (nbSeg10 ++ (nbSeg11)))))))))) start_marker = none :=
    findSub_append_none (by decide) h3
  have h1 : findSub (nbSeg1 ++ (nbSeg2 ++ (nbSeg3 ++ (nbSeg4 ++ (nbSeg5 ++ (nbSeg6 ++ (nbSeg7 ++ (nbSeg8 ++ (nbSeg9 ++ (nbSeg10 ++ (nbSeg11))))))))))) start_marker = none :=
    findSub_append_none (by decide) h2
  have h0 : findSub (nbSeg0 ++ (nbSeg1 ++ (nbSeg2 ++ (nbSeg3 ++ (nbSeg4 ++ (nbSeg5 ++ (nbSeg6 ++ (nbSeg7 ++ (nbSeg8 ++ (nbSeg9 ++ (nbSeg10 ++ (nbSeg11)))))))))))) start_marker = none :=
    findSub_append_none (by decide) h1
  unfold new_block
  exact h0

theorem block_no_end : findSub new_block end_marker = none := by
  have h11 : findSub nbSeg11 end_marker = none := by decide
  have h10 : findSub (nbSeg10 ++ (nbSeg11)) end_marker = none :=
    findSub_append_none (by decide) h11
  have h9 : findSub (nbSeg9 ++ (nbSeg10 ++ (nbSeg11))) end_marker = none :=
    findSub_append_none (by decide) h10
  have h8 : findSub (nbSeg8 ++ (nbSeg9 ++ (nbSeg10 ++ (nbSeg11)))) end_marker = none :=
    findSub_append_none (by decide) h9
  have h7 : findSub (nbSeg7 ++ (nbSeg8 ++ (nbSeg9 ++ (nbSeg10 ++ (nbSeg11))))) end_marker = none :=
    findSub_append_none (by decide) h8
  have h6 : findSub (nbSeg6 ++ (nbSeg7 ++ (nbSeg8 ++ (nbSeg9 ++ (nbSeg10 ++ (nbSeg11)))))) end_marker = none :=
    findSub_append_none (by decide) h7
  have h5 : findSub (nbSeg5 ++ (nbSeg6 ++ (nbSeg7 ++ (nbSeg8 ++ (nbSeg9 ++ (nbSeg10 ++ (nbSeg11))))))) end_marker = none :=
    findSub_append_none (by decide) h6
  have h4 : findSub (nbSeg4 ++ (nbSeg5 ++ (nbSeg6 ++ (nbSeg7 ++ (nbSeg8 ++ (nbSeg9 ++ (nbSeg10 ++ (nbSeg11)))))))) end_marker = none :=
    findSub_append_none (by decide) h5
  have h3 : findSub (nbSeg3 ++ (nbSeg4 ++ (nbSeg5 ++ (nbSeg6 ++ (nbSeg7 ++ (nbSeg8 ++ (nbSeg9 ++ (nbSeg10 ++ (nbSeg11))))))))) end_marker = none :=
    findSub_append_none (by decide) h4
  have h2 : findSub (nbSeg2 ++ (nbSeg3 ++ (nbSeg4 ++ (nbSeg5 ++ (nbSeg6 ++ (nbSeg7 ++ (nbSeg8 ++ (nbSeg9 ++ (nbSeg10 ++ (nbSeg11)))))))))) end_marker = none :=
    findSub_append_none (by decide) h3
  have h1 : findSub (nbSeg1 ++ (nbSeg2 ++ (nbSeg3 ++ (nbSeg4 ++ (nbSeg5 ++ (nbSeg6 ++ (nbSeg7 ++ (nbSeg8 ++ (nbSeg9 ++ (nbSeg10 ++ (nbSeg11))))))))))) end_marker = none :=
    findSub_append_none (by decide) h2
  have h0 : findSub (nbSeg0 ++ (nbSeg1 ++ (nbSeg2 ++ (nbSeg3 ++ (nbSeg4 ++ (nbSeg5 ++ (nbSeg6 ++ (nbSeg7 ++ (nbSeg8 ++ (nbSeg9 ++ (nbSeg10 ++ (nbSeg11)))))))))))) end_marker = none :=
    findSub_append_none (by decide) h1
  unfold new_block
  exact h0

theorem sm_le_block : start_marker.length ≤ new_block.length := by
  have h : start_marker.length ≤ nbSeg0.length := by decide
  unfold new_block
  rw [List.length_append]
  exact Nat.le_trans h (Nat.le_add_right _ _)

theorem no_mid_start_in_block :
    ∀ k, k < start_marker.length → 0 < k →
      beginsWith (start_marker.drop k) new_block = false := by decide

theorem start_tail_ne_end_head :
    ∀ k, k < start_marker.length → 0 < k →
      start_marker.drop k ≠ end_marker.take (start_marker.length - k) := by decide

theorem sm_le_em : start_marker.length ≤ end_marker.length := by decide

theorem sm_length_pos : 0 < start_marker.length := by decide

theorem em_length_pos : 0 < end_marker.length := by decide

theorem pyFind_eq_of_some {t p : List Char} {i : Nat}
    (h : findSub t p = some i) : pyFind t p = (i : Int) := by
  rw [pyFind, h]

theorem pyFind_eq_of_none {t p : List Char} (h : findSub t p = none) :
    pyFind t p = -1 := by
  rw [pyFind, h]

theorem findSub_none_of_pyFind {t p : List Char} (h : pyFind t p = -1) :
    findSub t p = none := by
  cases hf : findSub t p with
  | none => rfl
  | some i =>
    rw [pyFind_eq_of_some hf] at h
    omega

theorem findSub_some_of_pyFind {t p : List Char} (h : pyFind t p ≠ -1) :
    ∃ i, findSub t p = some i := by
  cases hf : findSub t p with
  | none => exact absurd (pyFind_eq_of_none hf) h
  | some i => exact ⟨i, rfl⟩

theorem runPatcher_found {sMarker eMarker repl content : List Char} {s e : Nat}
    (hs : findSub content sMarker = some s)
    (he : findSub content eMarker = some e) :
    runPatcher sMarker eMarker repl content =
      ⟨content.take s ++ repl ++ content.drop e, successMsg, 0⟩ := by
  have hcond : ¬(pyFind content sMarker = -1 ∨ pyFind content eMarker = -1) := by
    rw [pyFind_eq_of_some hs, pyFind_eq_of_some he]
    omega
  simp only [runPatcher, if_neg hcond]
  rw [pyFind_eq_of_some hs, pyFind_eq_of_some he]
  rfl

theorem runPatcher_missing {sMarker eMarker repl content : List Char}
    (h : findSub content sMarker = none ∨ findSub content eMarker = none) :
    runPatcher sMarker eMarker repl content =
      ⟨content, missingMsg (pyFind content sMarker) (pyFind content eMarker), 1⟩ := by
  have hcond : pyFind content sMarker = -1 ∨ pyFind content eMarker = -1 := by
    rcases h with h | h
    · exact Or.inl (pyFind_eq_of_none h)
    · exact Or.inr (pyFind_eq_of_none h)
  simp only [runPatcher, if_pos hcond]

theorem patched_fileContent {content : List Char} {s e : Nat}
    (hs : findSub content start_marker = some s)
    (he : findSub content end_marker = some e) :
    (patchRun content).fileContent =
      content.take s ++ new_block ++ content.drop e := by
  rw [patchRun, runPatcher_found hs he]

theorem take_length_of_found {content p : List Char} {s : Nat}
    (hs : findSub content p = some s) (hp : 0 < p.length) :
    (content.take s).length = s := by
  have h1 := beginsWith_length_le (findSub_some hs)
  rw [List.length_drop] at h1
  rw [List.length_take]
  omega

theorem patched_drop_tail {content : List Char} {s e : Nat}
    (hs : findSub content start_marker = some s)
    (he : findSub content end_marker = some e) :
    ((patchRun content).fileContent).drop (s + new_block.length) =
      content.drop e := by
  rw [patched_fileContent hs he, List.append_assoc]
  have hA := take_length_of_found hs sm_length_pos
  rw [List.drop_append_eq_append_drop, List.drop_eq_nil_of_le (by omega),
    List.nil_append, hA, Nat.add_sub_cancel_left, List.drop_left]

/-- C1: for every document text in which both markers occur, the patched output
equals `text.take startIndex ++ replacement ++ text.drop endIndex`, where the
indices are the first occurrences of the start and end markers; in particular
the end marker's own text is preserved in the output. The spec's concrete
scenario (markers `START`/`END`, replacement `NEW\n`) instantiates this in the
witness. -/
theorem patched_output_is_splice {sMarker eMarker repl content : List Char}
    {s e : Nat}
    (hs : findSub content sMarker = some s)
    (he : findSub content eMarker = some e) :
    (runPatcher sMarker eMarker repl content).fileContent =
      content.take s ++ repl ++ content.drop e := by
  rw [runPatcher_found hs he]

/-- Witness for C1: the spec's concrete scenario
`"X\nSTART\nold\nEND\nY"` with markers `START`/`END` and replacement
`"NEW\n"` yields `"X\nNEW\nEND\nY"`. -/
theorem patched_output_is_splice_witness :
    (runPatcher "START".data "END".data "NEW\n".data
        "X\nSTART\nold\nEND\nY".data).fileContent = "X\nNEW\nEND\nY".data := by
  have h := @patched_output_is_splice "START".data "END".data "NEW\n".data
    "X\nSTART\nold\nEND\nY".data 2 12 (by decide) (by decide)
  rw [h]
  decide

/-- C2: whenever at least one marker does not occur in the document, the run
leaves the file contents unchanged, exits with status 1, and prints the one-line
diagnostic reporting the index found for each marker, `-1` for each absent
marker. -/
theorem missing_marker_aborts (content : List Char)
    (h : findSub content start_marker = none ∨ findSub content end_marker = none) :
    (patchRun content).fileContent = content ∧
    (patchRun content).exitCode = 1 ∧
    (patchRun content).output =
      "Markers not found! start=".data ++ intStr (pyFind content start_marker) ++
        ", end=".data ++ intStr (pyFind content end_marker) ∧
    (findSub content start_marker = none → pyFind content start_marker = -1) ∧
    (findSub content end_marker = none → pyFind content end_marker = -1) := by
  have hr := @runPatcher_missing start_marker end_marker new_block content h
  unfold patchRun
  rw [hr]
  exact ⟨rfl, rfl, rfl, fun hn => pyFind_eq_of_none hn,
    fun hn => pyFind_eq_of_none hn⟩

/-- Witness for C2 at the empty document, where both markers are absent: no
write, exit status 1, and the diagnostic reports `-1` for both markers. -/
theorem missing_marker_aborts_witness :
    (patchRun []).fileContent = [] ∧ (patchRun []).exitCode = 1 ∧
    (patchRun []).output = "Markers not found! start=-1, end=-1".data := by
  obtain ⟨h1, h2, h3, h4, h5⟩ := missing_marker_aborts [] (Or.inl (by decide))
  refine ⟨h1, h2, ?_⟩
  rw [h3, h4 (by decide), h5 (by decide)]
  decide

/-- C3: marker location is first-occurrence-only and the two searches are
independent plain substring searches: each located index is an occurrence of
its marker with no occurrence at any earlier index, and on success the patcher
keeps the text before the first start-marker occurrence, replaces up to the
first end-marker occurrence, and prints only the fixed success message (no
duplicate-occurrence detection or warning). -/
theorem first_occurrence_search (content : List Char) (s e : Nat)
    (hs : findSub content start_marker = some s)
    (he : findSub content end_marker = some e) :
    beginsWith start_marker (content.drop s) = true ∧
    (∀ j, j < s → beginsWith start_marker (content.drop j) = false) ∧
    beginsWith end_marker (content.drop e) = true ∧
    (∀ j, j < e → beginsWith end_marker (content.drop j) = false) ∧
    (patchRun content).fileContent =
      content.take s ++ new_block ++ content.drop e ∧
    (patchRun content).output = successMsg := by
  refine ⟨findSub_some hs, fun j hj => findSub_least hs hj, findSub_some he,
    fun j hj => findSub_least he hj, patched_fileContent hs he, ?_⟩
  rw [patchRun, runPatcher_found hs he]

/-- Witness for C3 at a document in which the start marker occurs twice: the
splice uses the first occurrence (index 0), and the run prints only the fixed
success message. -/
theorem first_occurrence_search_witness :
    beginsWith start_marker
      ((start_marker ++ (start_marker ++ end_marker)).drop 0) = true ∧
    beginsWith start_marker
      ((start_marker ++ (start_marker ++ end_marker)).drop start_marker.length) =
      true ∧
    (patchRun (start_marker ++ (start_marker ++ end_marker))).fileContent =
      (start_marker ++ (start_marker ++ end_marker)).take 0 ++ new_block ++
        (start_marker ++ (start_marker ++ end_marker)).drop
          (start_marker.length + start_marker.length) ∧
    (patchRun (start_marker ++ (start_marker ++ end_marker))).output =
      successMsg := by
  have h := first_occurrence_search (start_marker ++ (start_marker ++ end_marker))
    0 (start_marker.length + start_marker.length) (by decide) (by decide)
  exact ⟨h.1, by decide, h.2.2.2.2.1, h.2.2.2.2.2⟩

theorem patchRun_missing {content : List Char}
    (h : findSub content start_marker = none ∨
      findSub content end_marker = none) :
    patchRun content = ⟨content, missingMsg (pyFind content start_marker)
      (pyFind content end_marker), 1⟩ := by
  rw [patchRun]
  exact runPatcher_missing h

/-- C4: the patcher is a one-shot patch: if the start marker occurs exactly
once, before the first end-marker occurrence, then after a successful run the
start marker no longer occurs in the patched output, so a second run aborts
with the marker-not-found failure and leaves the once-patched text unchanged
(no silent no-op). -/
theorem one_shot_patch (content : List Char) (s e : Nat)
    (hs : findSub content start_marker = some s)
    (he : findSub content end_marker = some e)
    (hlt : s < e)
    (huniq : findSub (content.drop (s + 1)) start_marker = none) :
    findSub (patchRun content).fileContent start_marker = none ∧
    (patchRun ((patchRun content).fileContent)).fileContent =
      (patchRun content).fileContent ∧
    (patchRun ((patchRun content).fileContent)).exitCode = 1 := by
  have hfc := patched_fileContent hs he
  have hA : (content.take s).length = s := take_length_of_found hs sm_length_pos
  have hnone : findSub (content.take s ++ new_block ++ content.drop e)
      start_marker = none := by
    rw [List.append_assoc, findSub_none_iff]
    intro j
    rw [List.drop_append_eq_append_drop]
    cases hocc : beginsWith start_marker
      ((content.take s).drop j ++
        (new_block ++ content.drop e).drop (j - (content.take s).length)) with
    | false => rfl
    | true =>
      exfalso
      rcases le_or_lt s j with hj | hj
      · -- the candidate position lies at or after the kept head
        have hnil : (content.take s).drop j = [] :=
          List.drop_eq_nil_of_le (by rw [hA]; omega)
        rw [hnil, List.nil_append, hA, List.drop_append_eq_append_drop] at hocc
        rcases le_or_lt new_block.length (j - s) with hi | hi
        · -- candidate fully inside the preserved tail
          have hbnil : new_block.drop (j - s) = [] := List.drop_eq_nil_of_le hi
          rw [hbnil, List.nil_append, List.drop_drop] at hocc
          have hu := findSub_none_iff.mp huniq
            (e + (j - s - new_block.length) - (s + 1))
          rw [List.drop_drop] at hu
          have harith : s + 1 + (e + (j - s - new_block.length) - (s + 1)) =
              e + (j - s - new_block.length) := by omega
          rw [harith] at hu
          rw [hocc] at hu
          cases hu
        · -- candidate starts inside the replacement block
          have hz : j - s - new_block.length = 0 := by omega
          rw [hz, List.drop_zero] at hocc
          rcases beginsWith_append_split hocc with ⟨_, hb4⟩ | ⟨hlt4, _, hb4⟩
          · have hbn := findSub_none_iff.mp block_no_start (j - s)
            rw [hb4] at hbn
            cases hbn
          · rw [List.length_drop] at hlt4 hb4
            have hkpos : 0 < new_block.length - (j - s) := by omega
            have hemC : beginsWith end_marker (content.drop e) = true :=
              findSub_some he
            have hag := beginsWith_agree hb4 hemC (by
              rw [List.length_drop]
              have h1 := sm_le_em
              omega)
            rw [List.length_drop] at hag
            exact start_tail_ne_end_head (new_block.length - (j - s))
              hlt4 hkpos hag
      · -- the candidate position lies strictly inside the kept head
        have hz : j - (content.take s).length = 0 := by rw [hA]; omega
        rw [hz, List.drop_zero] at hocc
        rcases beginsWith_append_split hocc with ⟨_, hb⟩ | ⟨hlt2, _, hb2⟩
        · -- a full occurrence before index s, contradicting minimality
          have h0 : content.take s ++ content.drop s = content :=
            List.take_append_drop s content
          have hdecomp : content.drop j =
              (content.take s).drop j ++ content.drop s := by
            calc content.drop j
                = (content.take s ++ content.drop s).drop j := by rw [h0]
              _ = (content.take s).drop j ++
                    (content.drop s).drop (j - (content.take s).length) :=
                  List.drop_append_eq_append_drop
              _ = (content.take s).drop j ++ content.drop s := by
                  rw [hA, Nat.sub_eq_zero_of_le (Nat.le_of_lt hj),
                    List.drop_zero]
          have hocc2 : beginsWith start_marker (content.drop j) = true := by
            rw [hdecomp]
            exact beginsWith_append_of _ hb
          have hleast := findSub_least hs hj
          rw [hocc2] at hleast
          cases hleast
        · -- the candidate straddles the head/replacement boundary
          rw [List.length_drop, hA] at hlt2 hb2
          rcases beginsWith_append_split hb2 with ⟨_, hb3⟩ | ⟨hlt3, _, _⟩
          · have := no_mid_start_in_block (s - j) hlt2 (by omega)
            rw [hb3] at this
            cases this
          · have h1 : (start_marker.drop (s - j)).length ≤
                start_marker.length := by
              rw [List.length_drop]
              omega
            have h2 := sm_le_block
            omega
  have hnone' : findSub (patchRun content).fileContent start_marker = none := by
    rw [hfc]
    exact hnone
  refine ⟨hnone', ?_, ?_⟩
  · rw [patchRun_missing (Or.inl hnone')]
  · rw [patchRun_missing (Or.inl hnone')]

/-- Witness for C4 at the document `start_marker ++ end_marker`: after one
successful run the start marker is gone, and a second run exits with status 1
without changing the file. -/
theorem one_shot_patch_witness :
    findSub (patchRun (start_marker ++ end_marker)).fileContent
      start_marker = none ∧
    (patchRun ((patchRun (start_marker ++ end_marker)).fileContent)).exitCode =
      1 := by
  have h := one_shot_patch (start_marker ++ end_marker) 0 start_marker.length
    (by decide) (by decide) (by decide) (by decide)
  exact ⟨h.1, h.2.2⟩

/-- C5: there is no validation that the start index precedes the end index:
when the first end-marker occurrence comes before the first start-marker
occurrence, the splice still executes on the raw indices, the run is not
aborted, and the file write event occurs. -/
theorem no_bounds_validation (content : List Char) (s e : Nat)
    (hs : findSub content start_marker = some s)
    (he : findSub content end_marker = some e)
    (_hlt : e < s) :
    (patchRun content).fileContent =
      content.take s ++ new_block ++ content.drop e ∧
    (patchRun content).exitCode = 0 ∧
    Event.writeFile (content.take s ++ new_block ++ content.drop e) ∈
      scriptTrace content := by
  refine ⟨patched_fileContent hs he, ?_, ?_⟩
  · rw [patchRun, runPatcher_found hs he]
  · have hcond : ¬(pyFind content start_marker = -1 ∨
        pyFind content end_marker = -1) := by
      rw [pyFind_eq_of_some hs, pyFind_eq_of_some he]
      omega
    simp only [scriptTrace, if_neg hcond]
    rw [pyFind_eq_of_some hs, pyFind_eq_of_some he]
    simp [splice, List.mem_cons]

/-- Witness for C5 at the document `end_marker ++ start_marker`, where the end
marker precedes the start marker: the run still succeeds and writes. -/
theorem no_bounds_validation_witness :
    (patchRun (end_marker ++ start_marker)).exitCode = 0 ∧
    Event.writeFile ((end_marker ++ start_marker).take end_marker.length ++
        new_block ++ (end_marker ++ start_marker).drop 0) ∈
      scriptTrace (end_marker ++ start_marker) := by
  have h := no_bounds_validation (end_marker ++ start_marker) end_marker.length
    0 (by decide) (by decide) (by decide)
  exact ⟨h.2.1, h.2.2⟩

/-- C6: every run ends in exactly one of two terminal outcomes: `Patched`
(both marker indices found: the trace is read, both searches, the write, the
confirmation, and status 0) or `Aborted` (at least one index is `-1`: the
trace is read, both searches, the diagnostic, and status 1, with the file
unchanged); moreover a write event occurs only strictly after both marker
searches, and only when both indices were found. -/
theorem run_terminal_outcomes (content : List Char) :
    ((pyFind content start_marker ≠ -1 ∧ pyFind content end_marker ≠ -1 ∧
        scriptTrace content =
          [Event.readFile content,
            Event.findMarker start_marker (pyFind content start_marker),
            Event.findMarker end_marker (pyFind content end_marker),
            Event.writeFile (patchRun content).fileContent,
            Event.printLine successMsg, Event.exitProc 0] ∧
        (patchRun content).exitCode = 0) ∨
      ((pyFind content start_marker = -1 ∨ pyFind content end_marker = -1) ∧
        scriptTrace content =
          [Event.readFile content,
            Event.findMarker start_marker (pyFind content start_marker),
            Event.findMarker end_marker (pyFind content end_marker),
            Event.printLine (missingMsg (pyFind content start_marker)
              (pyFind content end_marker)),
            Event.exitProc 1] ∧
        (patchRun content).fileContent = content ∧
        (patchRun content).exitCode = 1)) ∧
    (∀ i c, (scriptTrace content)[i]? = some (Event.writeFile c) →
      3 ≤ i ∧
      (scriptTrace content)[1]? =
        some (Event.findMarker start_marker (pyFind content start_marker)) ∧
      (scriptTrace content)[2]? =
        some (Event.findMarker end_marker (pyFind content end_marker)) ∧
      pyFind content start_marker ≠ -1 ∧ pyFind content end_marker ≠ -1) := by
  by_cases hcond : pyFind content start_marker = -1 ∨
      pyFind content end_marker = -1
  · have hmiss : findSub content start_marker = none ∨
        findSub content end_marker = none := by
      rcases hcond with h | h
      · exact Or.inl (findSub_none_of_pyFind h)
      · exact Or.inr (findSub_none_of_pyFind h)
    have htr : scriptTrace content =
        [Event.readFile content,
          Event.findMarker start_marker (pyFind content start_marker),
          Event.findMarker end_marker (pyFind content end_marker),
          Event.printLine (missingMsg (pyFind content start_marker)
            (pyFind content end_marker)),
          Event.exitProc 1] := by
      simp only [scriptTrace, if_pos hcond]
    refine ⟨Or.inr ⟨hcond, htr, ?_, ?_⟩, ?_⟩
    · rw [patchRun_missing hmiss]
    · rw [patchRun_missing hmiss]
    · intro i c hic
      rw [htr] at hic
      exfalso
      rcases i with _ | _ | _ | _ | _ | i <;> simp at hic
  · have hcond' := hcond
    push_neg at hcond'
    obtain ⟨hne1, hne2⟩ := hcond'
    obtain ⟨s, hs⟩ := findSub_some_of_pyFind hne1
    obtain ⟨e, he⟩ := findSub_some_of_pyFind hne2
    have hwrite : (patchRun content).fileContent =
        splice content (pyFind content start_marker).toNat
          (pyFind content end_marker).toNat new_block := by
      simp only [patchRun, runPatcher, if_neg hcond]
    have htr : scriptTrace content =
        [Event.readFile content,
          Event.findMarker start_marker (pyFind content start_marker),
          Event.findMarker end_marker (pyFind content end_marker),
          Event.writeFile (patchRun content).fileContent,
          Event.printLine successMsg, Event.exitProc 0] := by
      simp only [scriptTrace, if_neg hcond]
      rw [hwrite]
    have hec : (patchRun content).exitCode = 0 := by
      simp only [patchRun, runPatcher, if_neg hcond]
    refine ⟨Or.inl ⟨hne1, hne2, htr, hec⟩, ?_⟩
    intro i c hic
    rw [htr] at hic
    rcases i with _ | _ | _ | i
    · simp at hic
    · simp at hic
    · simp at hic
    · exact ⟨by omega, by rw [htr]; rfl, by rw [htr]; rfl, hne1, hne2⟩

/-- Witness for C6 at a document holding both markers: the trace is the
success shape ending in exit status 0. -/
theorem run_terminal_outcomes_witness :
    scriptTrace (start_marker ++ end_marker) =
      [Event.readFile (start_marker ++ end_marker),
        Event.findMarker start_marker 0,
        Event.findMarker end_marker (start_marker.length : Int),
        Event.writeFile (patchRun (start_marker ++ end_marker)).fileContent,
        Event.printLine successMsg, Event.exitProc 0] ∧
    (patchRun (start_marker ++ end_marker)).exitCode = 0 := by
  have h := run_terminal_outcomes (start_marker ++ end_marker)
  rcases h.1 with ⟨_, _, htr, hec⟩ | ⟨hcond, _⟩
  · refine ⟨?_, hec⟩
    rw [htr, show pyFind (start_marker ++ end_marker) start_marker = 0 from
      by decide, show pyFind (start_marker ++ end_marker) end_marker =
      (start_marker.length : Int) from by decide]
  · exfalso
    rcases hcond with h1 | h1
    · rw [show pyFind (start_marker ++ end_marker) start_marker = 0 from
        by decide] at h1
      omega
    · rw [show pyFind (start_marker ++ end_marker) end_marker =
        (start_marker.length : Int) from by decide] at h1
      have : (0 : Int) ≤ (start_marker.length : Int) := by omega
      omega

/-- C7: frame property of the splice: on every successful run the output
begins with `text.take startIndex` verbatim and ends with `text.drop endIndex`
verbatim, so the end marker's own text survives in the output, starting at
position `startIndex + replacement.length`. -/
theorem splice_frame (content : List Char) (s e : Nat)
    (hs : findSub content start_marker = some s)
    (he : findSub content end_marker = some e) :
    (patchRun content).fileContent.take s = content.take s ∧
    (patchRun content).fileContent.drop (s + new_block.length) =
      content.drop e ∧
    beginsWith end_marker
      ((patchRun content).fileContent.drop (s + new_block.length)) = true := by
  have hA := take_length_of_found hs sm_length_pos
  refine ⟨?_, patched_drop_tail hs he, ?_⟩
  · rw [patched_fileContent hs he, List.append_assoc, List.take_left' hA]
  · rw [patched_drop_tail hs he]
    exact findSub_some he

/-- Witness for C7 at a document with a two-character head kept intact. -/
theorem splice_frame_witness :
    (patchRun ("AB".data ++ (start_marker ++ ("mid".data ++ (end_marker ++ "Z".data))))).fileContent.take 2 = ("AB".data ++ (start_marker ++ ("mid".data ++ (end_marker ++ "Z".data)))).take 2 ∧
    beginsWith end_marker
      ((patchRun ("AB".data ++ (start_marker ++ ("mid".data ++ (end_marker ++ "Z".data))))).fileContent.drop (2 + new_block.length)) = true := by
  have h := splice_frame ("AB".data ++ (start_marker ++ ("mid".data ++ (end_marker ++ "Z".data)))) 2 56 (by decide) (by decide)
  exact ⟨h.1, h.2.2⟩

/-- C8: whenever the guard passes (neither find returned `-1`), both indices
are valid offsets into the text: each is non-negative and, together with its
marker length, bounded by the text length; under that precondition the run
takes the write path and the splice of the two slices is exactly the written
content (no error branch). -/
theorem guard_bounds (content : List Char)
    (h : ¬(pyFind content start_marker = -1 ∨
      pyFind content end_marker = -1)) :
    0 ≤ pyFind content start_marker ∧ 0 ≤ pyFind content end_marker ∧
    (pyFind content start_marker).toNat + start_marker.length ≤
      content.length ∧
    (pyFind content end_marker).toNat + end_marker.length ≤ content.length ∧
    (patchRun content).fileContent =
      content.take (pyFind content start_marker).toNat ++ new_block ++
        content.drop (pyFind content end_marker).toNat ∧
    (patchRun content).exitCode = 0 := by
  push_neg at h
  obtain ⟨hne1, hne2⟩ := h
  obtain ⟨s, hs⟩ := findSub_some_of_pyFind hne1
  obtain ⟨e, he⟩ := findSub_some_of_pyFind hne2
  have hbs := beginsWith_length_le (findSub_some hs)
  have hbe := beginsWith_length_le (findSub_some he)
  rw [List.length_drop] at hbs hbe
  have hsm := sm_length_pos
  have hem := em_length_pos
  rw [pyFind_eq_of_some hs, pyFind_eq_of_some he, Int.toNat_ofNat,
    Int.toNat_ofNat]
  refine ⟨by omega, by omega, by omega, by omega,
    patched_fileContent hs he, ?_⟩
  rw [patchRun, runPatcher_found hs he]

/-- Witness for C8 at a document holding both markers after a one-character
head. -/
theorem guard_bounds_witness :
    (pyFind ("Q".data ++ (start_marker ++ end_marker)) start_marker).toNat +
        start_marker.length ≤
      ("Q".data ++ (start_marker ++ end_marker)).length ∧
    (patchRun ("Q".data ++ (start_marker ++ end_marker))).exitCode = 0 := by
  have h := guard_bounds ("Q".data ++ (start_marker ++ end_marker)) (by decide)
  exact ⟨h.2.2.1, h.2.2.2.2.2⟩

/-- C9: the baked-in replacement block contains no occurrence of the start
marker and none of the end marker; consequently a successfully patched
document gains no marker occurrence from the replacement itself, and the
end-marker text guaranteed in the output is the head of the preserved suffix
`text.drop endIndex`, reappearing at `startIndex + new_block.length`. -/
theorem replacement_adds_no_markers :
    findSub new_block start_marker = none ∧
    findSub new_block end_marker = none ∧
    (∀ content s e, findSub content start_marker = some s →
      findSub content end_marker = some e →
      (patchRun content).fileContent.drop (s + new_block.length) =
        content.drop e ∧
      beginsWith end_marker
        ((patchRun content).fileContent.drop (s + new_block.length)) =
        true) := by
  refine ⟨block_no_start, block_no_end,
    fun content s e hs he => ⟨patched_drop_tail hs he, ?_⟩⟩
  rw [patched_drop_tail hs he]
  exact findSub_some he

/-- Witness for C9 at a document with the two markers separated by one
character: the preserved suffix still begins with the end marker right after
the replacement block. -/
theorem replacement_adds_no_markers_witness :
    beginsWith end_marker
      ((patchRun (start_marker ++ ("x".data ++ end_marker))).fileContent.drop
        (0 + new_block.length)) = true := by
  exact (replacement_adds_no_markers.2.2
    (start_marker ++ ("x".data ++ end_marker)) 0 (start_marker.length + 1)
    (by decide) (by decide)).2

/-- C10: determinism: the observable behaviour of a run — final file contents,
console line, exit status, and the full event trace — is a pure function of
the input file contents together with the baked-in path, marker, and
replacement constants: two runs on identical contents are observably
identical. -/
theorem run_deterministic (c₁ c₂ : List Char) (h : c₁ = c₂) :
    (patchRun c₁).fileContent = (patchRun c₂).fileContent ∧
    (patchRun c₁).output = (patchRun c₂).output ∧
    (patchRun c₁).exitCode = (patchRun c₂).exitCode ∧
    scriptTrace c₁ = scriptTrace c₂ := by
  subst h
  exact ⟨rfl, rfl, rfl, rfl⟩

/-- Witness for C10 at two spellings of the same two-character document. -/
theorem run_deterministic_witness :
    (patchRun "ab".data).output = (patchRun ('a' :: ['b'])).output ∧
    (patchRun "ab".data).exitCode = (patchRun ('a' :: ['b'])).exitCode := by
  have h := run_deterministic "ab".data ('a' :: ['b']) (by decide)
  exact ⟨h.2.1, h.2.2.1⟩

end PatchAppointments
